import Mathlib

/-
Verification of the rvm module runtime (src/main.rs, src/host.rs, src/state.rs)
against its natural-language specification.  The Rust code is shallowly
embedded: module keys and blob names are lists of characters, artifact bytes
are lists of naturals, the registry is a function from keys to optional
values, and the effectful deploy / invoke / recovery paths are pure functions
over explicit environments describing the outcomes of the external calls
(channel sends, object-store writes, sandbox spawns).
-/

namespace Rvm

/-- Module keys, paths and blob names: strings embedded as character lists. -/
abbrev Key := List Char

/-- Artifact bytes embedded as a list of byte values. -/
abbrev Bytes := List Nat

/-- HTTP status 400, `StatusCode::BAD_REQUEST` in main.rs. -/
def statusBadRequest : Nat := 400

/-- HTTP status 404, `StatusCode::NOT_FOUND` in main.rs. -/
def statusNotFound : Nat := 404

/-- HTTP status 500, `StatusCode::INTERNAL_SERVER_ERROR` in main.rs. -/
def statusInternalServerError : Nat := 500

/-- HTTP status 503, `StatusCode::SERVICE_UNAVAILABLE` in main.rs. -/
def statusServiceUnavailable : Nat := 503

/-- Registry insert: `HashMap::insert` on `AppState.instances`, embedded on
functional maps.  The previous binding of the key, if any, is replaced. -/
def mapInsert {V : Type} (m : Key → Option V) (k : Key) (v : V) : Key → Option V :=
  fun k2 => if k2 = k then some v else m k2

/-! ## services::invoke_module (main.rs lines 150-171) -/

/-- Outcome of `rx.await` on the one-shot response channel: either the worker
sent a reply (a successful response or a structured `ErrorCode`), or the
sender side was dropped without replying. -/
inductive RecvOutcome (E R : Type) where
  | replied (r : Except E R)
  | dropped

/-- The behaviour of one registered worker inbox as observed by a single
invocation: whether `UnboundedSender::send` succeeds, and what the one-shot
channel then yields. -/
structure WorkerPort (E R : Type) where
  sendOk : Bool
  outcome : RecvOutcome E R

/-- Embedding of `services::invoke_module`: look the key up in
`state.instances` (404 on a miss), send the request on the worker inbox
(503 when the send fails), then await the one-shot: a successful reply is
forwarded, a structured error becomes 500, a dropped sender becomes 503. -/
def invoke_module {E R : Type} (instances : Key → Option (WorkerPort E R))
    (key : Key) : Except Nat R :=
  match instances key with
  | none => Except.error statusNotFound
  | some w =>
    if w.sendOk then
      match w.outcome with
      | RecvOutcome.replied (Except.ok resp) => Except.ok resp
      | RecvOutcome.replied (Except.error _) => Except.error statusInternalServerError
      | RecvOutcome.dropped => Except.error statusServiceUnavailable
    else Except.error statusServiceUnavailable

/-! ## Proxy path routing (main.rs lines 53-77) -/

/-- Embedding of `str::trim_start_matches('/')`: drop every leading slash. -/
def trimStartSlashes : List Char → List Char
  | [] => []
  | c :: rest => if c = '/' then trimStartSlashes rest else c :: rest

/-- Embedding of `str::split_once('/')`: split at the first slash, returning
the text before it and the text after it, or `none` when no slash occurs. -/
def splitOnceSlash : List Char → Option (List Char × List Char)
  | [] => none
  | c :: rest =>
    if c = '/' then some ([], rest)
    else
      match splitOnceSlash rest with
      | some p => some (c :: p.1, p.2)
      | none => none

/-- The `PathAndQuery` component of the request URI: a path (beginning with
a slash) and an optional query string. -/
structure PathAndQuery where
  path : List Char
  query : Option (List Char)

/-- Embedding of `PathAndQuery::to_string`: the path, then `?` and the query
when a query is present. -/
def pqToString (pq : PathAndQuery) : List Char :=
  pq.path ++ (match pq.query with | none => [] | some q => '?' :: q)

/-- Embedding of the key/forward derivation in the proxy `service_fn`: the
full path-and-query string is trimmed of leading slashes and split at the
first remaining slash; when no slash remains, the fallback pairs the
original path component (`path_and_query.path()`, leading slash included)
with the original query (empty when absent). -/
def routeKey (pq : PathAndQuery) : List Char × List Char :=
  match splitOnceSlash (trimStartSlashes (pqToString pq)) with
  | some p => p
  | none => (pq.path, pq.query.getD [])

/-- The rewritten URI handed to the worker: `/{forward}`. -/
def forwardUri (pq : PathAndQuery) : List Char :=
  '/' :: (routeKey pq).2

/-! ## Worker request-service loop (host.rs lines 99-141) -/

/-- The wasmtime store as the worker sees it: just its fuel counter.  Fuel is
a `u64` in the source; every value the program handles stays far below
`2 ^ 64`, so the counter is embedded as a natural number. -/
structure FuelStore where
  fuel : Nat

/-- Name of the first stamped header. -/
def remainingHeaderName : String := "x-rvm-fuel-remaining"

/-- Name of the second stamped header. -/
def consumedHeaderName : String := "x-rvm-fuel-consumed"

/-- Embedding of `fuel_before.saturating_sub(fuel_after)`: on naturals,
truncated subtraction is exactly `u64::saturating_sub` (no wrap-around). -/
def fuelConsumed (before after : Nat) : Nat := before - after

/-- A successful guest response, reduced to its header list; header values
here are the numeric values the fuel headers carry. -/
structure HostResponse where
  headers : List (String × Nat)

/-- The effect of `call_handle` on the store: the guest consumes `cost` fuel
units (a successful call never consumes more than is available, but the
embedding is total either way). -/
def callHandler (st : FuelStore) (cost : Nat) : FuelStore :=
  { fuel := st.fuel - cost }

/-- One successful iteration of the request-service loop: record
`fuel_before = store.get_fuel()`, run the handler, read
`fuel_after = store.get_fuel()`, and append the two fuel headers to the
guest's response before forwarding it. -/
def serveSuccess (st : FuelStore) (cost : Nat) (resp : HostResponse) :
    HostResponse × FuelStore :=
  let fuelBefore := st.fuel
  let st2 := callHandler st cost
  let fuelAfter := st2.fuel
  ({ headers := resp.headers ++
      [(remainingHeaderName, fuelAfter),
       (consumedHeaderName, fuelConsumed fuelBefore fuelAfter)] },
   st2)

/-- Embedding of the worker's `while let Some(request) = receiver.recv()`
loop, run from the instant the inbox sender is dropped: `recv` yields the
messages still queued and then `None`, at which point the loop exits.
Returns the number of requests drained and whether the loop terminated. -/
def workerLoop : List Nat → Nat × Bool
  | [] => (0, true)
  | _ :: rest =>
    let p := workerLoop rest
    (p.1 + 1, p.2)

/-! ## services::deploy_module (main.rs lines 179-214) -/

/-- The trimming suffix / blob-name suffix `".wasm"`. -/
def wasmSuffix : List Char := ['.', 'w', 'a', 's', 'm']

/-- Blob name used by deploy: `format!("{key}.wasm")`. -/
def blobName (k : Key) : Key := k ++ wasmSuffix

/-- Outcomes of the external calls deploy makes, in program order: spawning
the worker (compile + instantiate), opening the store writer, writing the
bytes, and closing the writer (the commit step). -/
structure DeployEnv where
  spawnOk : Bool
  openOk : Bool
  writeOk : Bool
  closeOk : Bool

/-- Events emitted by a deploy execution, in the order the source performs
them; an event appears only when the corresponding effect completed. -/
inductive DeployEvt where
  | spawned
  | writeOpened
  | wroteBytes
  | writeClosed
  | inserted
  deriving DecidableEq

/-- The mutable application state deploy touches: the registry's instances
map (worker inboxes, identified by a numeric sender id) and the set of
committed object-store blobs. -/
structure AppSt where
  instances : Key → Option Nat
  blobs : Key → Option Bytes

/-- Embedding of `services::deploy_module`: spawn the worker (early 500 on
failure, registry untouched), then open/write/close the object-store writer
for `<key>.wasm` — the `tokio::spawn(...)` handle is awaited in place, so
each failure is an early 500 with the registry untouched and the blob not
committed — and only then insert the new sender into `instances`.  The
result carries the response, the final state, and the event trace. -/
def deploy_module (st : AppSt) (key : Key) (bytes : Bytes) (newTx : Nat)
    (hashFn : Bytes → List Char) (env : DeployEnv) :
    Except Nat (List Char) × AppSt × List DeployEvt :=
  if env.spawnOk then
    if env.openOk then
      if env.writeOk then
        if env.closeOk then
          (Except.ok (hashFn bytes),
           { instances := mapInsert st.instances key newTx,
             blobs := mapInsert st.blobs (blobName key) bytes },
           [DeployEvt.spawned, DeployEvt.writeOpened, DeployEvt.wroteBytes,
            DeployEvt.writeClosed, DeployEvt.inserted])
        else
          (Except.error statusInternalServerError, st,
           [DeployEvt.spawned, DeployEvt.writeOpened, DeployEvt.wroteBytes])
      else
        (Except.error statusInternalServerError, st,
         [DeployEvt.spawned, DeployEvt.writeOpened])
    else
      (Except.error statusInternalServerError, st, [DeployEvt.spawned])
  else
    (Except.error statusInternalServerError, st, [])

/-! ## Admin body limit (main.rs lines 128-138) -/

/-- The configured request-body limit, `RequestBodyLimitLayer::new(1024 * 256_000)`. -/
def requestBodyLimitBytes : Nat := 1024 * 256000

/-- Whether the admin front-end admits a deploy body of `n` bytes: the
request-body-limit layer rejects a body strictly larger than the configured
limit and admits one at or below it (the default axum limit is disabled). -/
def admitBody (n : Nat) : Bool := decide (n ≤ requestBodyLimitBytes)

/-! ## Startup recovery (state.rs lines 53-73) -/

/-- Embedding of `str::ends_with(pat)` on character lists. -/
def endsWith (pat l : List Char) : Bool :=
  l.drop (l.length - pat.length) == pat

/-- One stripping step of `trim_end_matches`: remove the suffix. -/
def trimEndStep (pat l : List Char) : List Char :=
  l.take (l.length - pat.length)

/-- Fuelled worker for `trim_end_matches`: strip the pattern from the end as
long as it is a suffix.  Each strip of a non-empty pattern shortens the
list, so fuel `l.length` suffices to reach the fixed point. -/
def trimEndAux (pat : List Char) : Nat → List Char → List Char
  | 0, l => l
  | n + 1, l =>
    if endsWith pat l then trimEndAux pat n (trimEndStep pat l) else l

/-- Embedding of `str::trim_end_matches(pat)`: repeatedly remove the suffix
`pat` until the string no longer ends with it. -/
def trimEndMatches (pat l : List Char) : List Char :=
  trimEndAux pat l.length l

/-- Key derivation on recovery: `module_entry.name().trim_end_matches(".wasm")`. -/
def recoverKey (name : List Char) : List Char :=
  trimEndMatches wasmSuffix name

/-- Entry kinds returned by the object-store listing. -/
inductive EntryMode where
  | FILE
  | DIR
  deriving DecidableEq

/-- One listing entry: its path (used for the read), its name (used for key
derivation) and its kind. -/
structure Entry where
  path : List Char
  name : List Char
  mode : EntryMode

/-- Embedding of the recovery loop in `AppState::new`: walk the listed
entries in order; skip entries that are not plain files; for a file, read
its bytes and spawn a worker — a failure of either aborts the whole
recovery with that error — then register the worker (represented by its
bytes) under the derived key and continue. -/
def recoverModules (readB : List Char → Except Unit Bytes)
    (spawn : Bytes → Except Unit Unit) :
    List Entry → (Key → Option Bytes) → Except Unit (Key → Option Bytes)
  | [], m => Except.ok m
  | e :: rest, m =>
    if e.mode = EntryMode.FILE then
      Except.bind (readB e.path) fun bytes =>
        Except.bind (spawn bytes) fun _ =>
          recoverModules readB spawn rest (mapInsert m (recoverKey e.name) bytes)
    else
      recoverModules readB spawn rest m

/-- Reduction of `Except.bind` at a success value. -/
theorem exceptBind_ok {ε α β : Type} (a : α) (f : α → Except ε β) :
    Except.bind (Except.ok a) f = f a := rfl

/-- Reduction of `Except.bind` at an error value. -/
theorem exceptBind_error {ε α β : Type} (err : ε) (f : α → Except ε β) :
    Except.bind (Except.error err) f = Except.error err := rfl

/-! ## Theorems -/

/-- C1: for every invocation handled by `invoke_module`, a registry miss
yields 404; a failed inbox send yields 503; a structured worker error yields
500; a dropped one-shot yields 503; and a successful worker reply is
forwarded unchanged. -/
theorem C1_invoke_status_mapping {E R : Type}
    (instances : Key → Option (WorkerPort E R)) (key : Key) :
    (instances key = none →
      invoke_module instances key = Except.error statusNotFound) ∧
    (∀ w, instances key = some w → w.sendOk = false →
      invoke_module instances key = Except.error statusServiceUnavailable) ∧
    (∀ w e, instances key = some w → w.sendOk = true →
      w.outcome = RecvOutcome.replied (Except.error e) →
      invoke_module instances key = Except.error statusInternalServerError) ∧
    (∀ w, instances key = some w → w.sendOk = true →
      w.outcome = RecvOutcome.dropped →
      invoke_module instances key = Except.error statusServiceUnavailable) ∧
    (∀ w r, instances key = some w → w.sendOk = true →
      w.outcome = RecvOutcome.replied (Except.ok r) →
      invoke_module instances key = Except.ok r) := by
  refine ⟨?_, ?_, ?_, ?_, ?_⟩ <;> intros <;> simp_all [invoke_module]

/-- C1 witness: each of the five outcomes, exercised on a concrete registry. -/
theorem C1_witness :
    invoke_module (fun _ : Key => (none : Option (WorkerPort Unit Nat))) [] =
      Except.error statusNotFound ∧
    invoke_module
      (fun _ : Key => some (⟨false, RecvOutcome.dropped⟩ : WorkerPort Unit Nat)) [] =
      Except.error statusServiceUnavailable ∧
    invoke_module
      (fun _ : Key =>
        some (⟨true, RecvOutcome.replied (Except.error ())⟩ : WorkerPort Unit Nat)) [] =
      Except.error statusInternalServerError ∧
    invoke_module
      (fun _ : Key => some (⟨true, RecvOutcome.dropped⟩ : WorkerPort Unit Nat)) [] =
      Except.error statusServiceUnavailable ∧
    invoke_module
      (fun _ : Key =>
        some (⟨true, RecvOutcome.replied (Except.ok 7)⟩ : WorkerPort Unit Nat)) [] =
      Except.ok 7 := by
  refine ⟨?_, ?_, ?_, ?_, ?_⟩
  · exact (C1_invoke_status_mapping _ []).1 rfl
  · exact (C1_invoke_status_mapping _ []).2.1 _ rfl rfl
  · exact (C1_invoke_status_mapping _ []).2.2.1 _ () rfl rfl rfl
  · exact (C1_invoke_status_mapping _ []).2.2.2.1 _ rfl rfl rfl
  · exact (C1_invoke_status_mapping _ []).2.2.2.2 _ 7 rfl rfl rfl

/-- C4: on every successful invocation the stamped `x-rvm-fuel-remaining`
header carries exactly the store's fuel after the handler call, the stamped
`x-rvm-fuel-consumed` header carries `before - after` computed with
saturating subtraction, and that saturating difference equals
`max (before - after) 0` over the integers, hence is never negative. -/
theorem C4_fuel_headers (st : FuelStore) (cost : Nat) (resp : HostResponse) :
    ((remainingHeaderName, (serveSuccess st cost resp).2.fuel) ∈
      (serveSuccess st cost resp).1.headers) ∧
    ((consumedHeaderName,
        fuelConsumed st.fuel (serveSuccess st cost resp).2.fuel) ∈
      (serveSuccess st cost resp).1.headers) ∧
    (∀ b a : Nat, ((fuelConsumed b a : Nat) : ℤ) = max ((b : ℤ) - (a : ℤ)) 0) := by
  refine ⟨?_, ?_, ?_⟩
  · simp [serveSuccess, callHandler]
  · simp [serveSuccess, callHandler]
  · intro b a
    rcases Nat.le_total a b with h | h
    · rw [max_eq_left (by omega : (0 : ℤ) ≤ (b : ℤ) - (a : ℤ))]
      unfold fuelConsumed
      omega
    · rw [max_eq_right (by omega : (b : ℤ) - (a : ℤ) ≤ 0)]
      unfold fuelConsumed
      omega

/-- Helper: the worker loop drains every queued message and then exits. -/
theorem workerLoop_drains (pending : List Nat) :
    (workerLoop pending).1 = pending.length ∧ (workerLoop pending).2 = true := by
  induction pending with
  | nil => exact ⟨rfl, rfl⟩
  | cons r rest ih => simpa [workerLoop] using ih

/-- C5: the registry maps each key to at most one worker inbox; a successful
redeploy under an existing key replaces that key's entry (the old sender is
no longer reachable under the key); and once its inbox sender is dropped the
previous worker's receive loop drains the queued requests and exits (recv
returning none terminates the loop). -/
theorem C5_single_worker_replace (m : Key → Option Nat) (k : Key)
    (oldTx newTx : Nat) (pending : List Nat) :
    mapInsert m k newTx k = some newTx ∧
    (∀ v1 v2, mapInsert m k newTx k = some v1 →
      mapInsert m k newTx k = some v2 → v1 = v2) ∧
    (oldTx ≠ newTx → mapInsert m k newTx k ≠ some oldTx) ∧
    (workerLoop pending).2 = true ∧
    (workerLoop pending).1 = pending.length := by
  refine ⟨by simp [mapInsert], ?_, ?_, (workerLoop_drains pending).2,
    (workerLoop_drains pending).1⟩
  · intro v1 v2 h1 h2
    rw [h1] at h2
    exact Option.some_inj.mp h2
  · intro hne hcontra
    simp [mapInsert] at hcontra
    exact hne hcontra.symm

/-- C5 witness: redeploy of key `k` with a fresh sender id on a concrete
registry, and a worker with two queued requests draining and exiting. -/
theorem C5_witness :
    mapInsert (fun _ : Key => some 0) [] 1 [] = some 1 ∧
    mapInsert (fun _ : Key => some 0) [] 1 [] ≠ some 0 ∧
    (workerLoop [5, 6]).2 = true ∧ (workerLoop [5, 6]).1 = 2 := by
  have h := C5_single_worker_replace (fun _ : Key => some 0) [] 0 1 [5, 6]
  exact ⟨h.1, h.2.2.1 (by decide), h.2.2.2.1, h.2.2.2.2⟩

/-- C6 counterexample: the configured admin body limit is
`1024 * 256_000 = 262144000` bytes, so it is not 256 MiB, and a body of
exactly 256 MiB (268435456 bytes) is rejected rather than accepted. -/
theorem C6_limit_counterexample :
    requestBodyLimitBytes ≠ 268435456 ∧ admitBody 268435456 = false := by
  constructor
  · decide
  · decide

/-- C6 amended: the configured request-body limit equals
`1024 * 256_000 = 262144000` bytes (exactly 250 MiB); a deploy body of
exactly 262144000 bytes is accepted and one of 262144001 bytes is rejected. -/
theorem C6_body_limit :
    requestBodyLimitBytes = 262144000 ∧
    admitBody 262144000 = true ∧
    admitBody 262144001 = false := by
  refine ⟨rfl, ?_, ?_⟩
  · decide
  · decide

/-- C3: evaluation of the routing code at the failing input.  For the
single-segment request `/key` with no query, the split over the trimmed
string finds no slash, so the fallback uses `path_and_query.path()` — which
keeps the leading slash — as the lookup key: the key is `"/key"`, not the
first path segment `"key"` (the forward part is empty, so the rewritten URI
is `/` with empty query, as stated). -/
theorem C3_single_segment_eval :
    routeKey ⟨['/', 'k', 'e', 'y'], none⟩ = (['/', 'k', 'e', 'y'], []) ∧
    forwardUri ⟨['/', 'k', 'e', 'y'], none⟩ = ['/'] ∧
    (['/', 'k', 'e', 'y'] : List Char) ≠ ['k', 'e', 'y'] := by
  refine ⟨rfl, rfl, ?_⟩
  decide

/-- Helper: trimming leading slashes passes over a non-slash head. -/
theorem trimStartSlashes_cons_ne (c : Char) (l : List Char) (h : c ≠ '/') :
    trimStartSlashes (c :: l) = c :: l := by
  simp [trimStartSlashes, h]

/-- Helper: splitting at the first slash of `a ++ '/' :: b` with no slash in
`a` yields `(a, b)`. -/
theorem splitOnceSlash_append (a b : List Char) (ha : '/' ∉ a) :
    splitOnceSlash (a ++ '/' :: b) = some (a, b) := by
  induction a with
  | nil => simp [splitOnceSlash]
  | cons c rest ih =>
    have hc : c ≠ '/' := fun h => ha (h ▸ List.mem_cons_self c rest)
    have hrest : '/' ∉ rest := fun h => ha (List.mem_cons_of_mem c h)
    simp [splitOnceSlash, hc, ih hrest]

/-- C9: when the path is a single segment but the query contains a slash,
the slash inside the query acts as the separator: the registry key is the
path segment together with `?` and the query text before the slash, and
only the query text after the slash is forwarded. -/
theorem C9_query_slash_split (seg q1 q2 : List Char) (hseg : seg ≠ [])
    (h1 : '/' ∉ seg) (h2 : '/' ∉ q1) :
    routeKey ⟨'/' :: seg, some (q1 ++ '/' :: q2)⟩ = (seg ++ '?' :: q1, q2) := by
  obtain ⟨c, s, rfl⟩ := List.exists_cons_of_ne_nil hseg
  have hc : c ≠ '/' := fun h => h1 (h ▸ List.mem_cons_self c s)
  have hsplit : '/' ∉ (c :: s) ++ '?' :: q1 := by
    intro h
    rcases List.mem_append.mp h with h | h
    · exact h1 h
    · rcases List.mem_cons.mp h with h | h
      · exact absurd h.symm (by decide)
      · exact h2 h
  unfold routeKey pqToString
  have harr : ('/' :: c :: s) ++ '?' :: (q1 ++ '/' :: q2) =
      '/' :: (((c :: s) ++ '?' :: q1) ++ '/' :: q2) := by
    simp
  rw [harr]
  have htrim : trimStartSlashes ('/' :: (((c :: s) ++ '?' :: q1) ++ '/' :: q2)) =
      ((c :: s) ++ '?' :: q1) ++ '/' :: q2 := by
    show (if ('/' : Char) = '/' then
        trimStartSlashes (((c :: s) ++ '?' :: q1) ++ '/' :: q2)
      else _) = _
    rw [if_pos rfl]
    exact trimStartSlashes_cons_ne c _ hc
  rw [htrim, splitOnceSlash_append _ _ hsplit]

/-- C9 witness: the request `/key?a/b` is routed with lookup key `key?a` and
forward text `b`. -/
theorem C9_witness :
    routeKey ⟨['/', 'k', 'e', 'y'], some ['a', '/', 'b']⟩ =
      (['k', 'e', 'y', '?', 'a'], ['b']) := by
  have h := C9_query_slash_split ['k', 'e', 'y'] ['a'] ['b']
    (by decide) (by decide) (by decide)
  exact h

/-- Helper: a list always ends with a suffix appended to it. -/
theorem endsWith_append (k pat : List Char) : endsWith pat (k ++ pat) = true := by
  unfold endsWith
  rw [List.length_append, Nat.add_sub_cancel, List.drop_left]
  exact beq_self_eq_true pat

/-- Helper: one trimming step removes exactly the appended suffix. -/
theorem trimEndStep_append (k pat : List Char) : trimEndStep pat (k ++ pat) = k := by
  unfold trimEndStep
  rw [List.length_append, Nat.add_sub_cancel, List.take_left]

/-- Helper: the trimming worker is the identity on a list that does not end
with the pattern, whatever the fuel. -/
theorem trimEndAux_no (pat : List Char) (n : Nat) (l : List Char)
    (h : endsWith pat l = false) : trimEndAux pat n l = l := by
  cases n with
  | zero => rfl
  | succ n => simp [trimEndAux, h]

/-- C7 counterexample: the module key `a.wasm` does not survive the
round-trip.  Deploy persists it as blob `a.wasm.wasm`, but recovery strips
every trailing `.wasm` occurrence, deriving the registry key `a` instead of
`a.wasm`. -/
theorem C7_roundtrip_counterexample :
    recoverKey (blobName ['a', '.', 'w', 'a', 's', 'm']) = ['a'] ∧
    (['a'] : List Char) ≠ ['a', '.', 'w', 'a', 's', 'm'] := by
  refine ⟨rfl, ?_⟩
  decide

/-- C7 amended: for every module key that does not itself end in `.wasm`,
startup recovery derives from the blob `<key>.wasm` a registry key equal to
the original key, so the module is rehydrated under the same key. -/
theorem C7_roundtrip_no_wasm_suffix (k : List Char)
    (h : endsWith wasmSuffix k = false) :
    recoverKey (blobName k) = k := by
  unfold recoverKey trimEndMatches blobName
  have hlen : (k ++ wasmSuffix).length = (k.length + 4) + 1 := by
    simp [List.length_append, wasmSuffix]
  rw [hlen]
  show (if endsWith wasmSuffix (k ++ wasmSuffix) then
      trimEndAux wasmSuffix (k.length + 4) (trimEndStep wasmSuffix (k ++ wasmSuffix))
    else k ++ wasmSuffix) = k
  rw [if_pos (by rw [endsWith_append]), trimEndStep_append]
  exact trimEndAux_no wasmSuffix (k.length + 4) k h

/-- C7 witness: the key `a` (which does not end in `.wasm`) round-trips
through the blob name `a.wasm`. -/
theorem C7_witness :
    endsWith wasmSuffix ['a'] = false ∧ recoverKey (blobName ['a']) = ['a'] :=
  ⟨by decide, C7_roundtrip_no_wasm_suffix ['a'] (by decide)⟩

/-- C2: if worker construction fails or any step of persisting the bytes to
the object store fails, deploy returns 500 and the registry's instances map
is left unchanged at every key — in particular any inbox previously
registered under the deployed key is still present, not replaced. -/
theorem C2_deploy_failure_no_mutation (st : AppSt) (key : Key) (bytes : Bytes)
    (newTx : Nat) (hashFn : Bytes → List Char) (env : DeployEnv)
    (hfail : env.spawnOk = false ∨ env.openOk = false ∨ env.writeOk = false ∨
      env.closeOk = false) :
    (deploy_module st key bytes newTx hashFn env).1 =
      Except.error statusInternalServerError ∧
    ∀ k2, (deploy_module st key bytes newTx hashFn env).2.1.instances k2 =
      st.instances k2 := by
  obtain ⟨s, o, w, c⟩ := env
  cases s <;> cases o <;> cases w <;> cases c <;> simp_all [deploy_module]

/-- C2 witness: a deploy whose worker construction fails returns 500 and
leaves the previously registered inbox for the key in place. -/
theorem C2_witness :
    (deploy_module ⟨fun _ => some 0, fun _ => none⟩ ['k'] [1] 9 (fun _ => [])
        ⟨false, true, true, true⟩).1 = Except.error statusInternalServerError ∧
    (deploy_module ⟨fun _ => some 0, fun _ => none⟩ ['k'] [1] 9 (fun _ => [])
        ⟨false, true, true, true⟩).2.1.instances ['k'] = some 0 := by
  have h := C2_deploy_failure_no_mutation ⟨fun _ => some 0, fun _ => none⟩
    ['k'] [1] 9 (fun _ => []) ⟨false, true, true, true⟩ (Or.inl rfl)
  exact ⟨h.1, (h.2 ['k']).trans rfl⟩

/-- C10: on every successful deploy the event trace places the object-store
commit (writer close) strictly before the registry insert, and the final
state has both the committed blob `<key>.wasm` and the registered sender —
there is no execution in which the key is registered while the blob write is
still pending. -/
theorem C10_write_before_insert (st : AppSt) (key : Key) (bytes : Bytes)
    (newTx : Nat) (hashFn : Bytes → List Char) (env : DeployEnv) (hv : List Char)
    (hok : (deploy_module st key bytes newTx hashFn env).1 = Except.ok hv) :
    (∀ i : Fin (deploy_module st key bytes newTx hashFn env).2.2.length,
      (deploy_module st key bytes newTx hashFn env).2.2.get i = DeployEvt.inserted →
      ∃ j : Fin (deploy_module st key bytes newTx hashFn env).2.2.length,
        (j : Nat) < (i : Nat) ∧
        (deploy_module st key bytes newTx hashFn env).2.2.get j =
          DeployEvt.writeClosed) ∧
    (deploy_module st key bytes newTx hashFn env).2.1.blobs (blobName key) =
      some bytes ∧
    (deploy_module st key bytes newTx hashFn env).2.1.instances key =
      some newTx := by
  obtain ⟨s, o, w, c⟩ := env
  cases s <;> cases o <;> cases w <;> cases c <;>
    simp_all [deploy_module, mapInsert]
  decide

/-- C10 witness: a concrete successful deploy commits the blob and registers
the sender. -/
theorem C10_witness :
    (deploy_module ⟨fun _ => none, fun _ => none⟩ ['k'] [1] 9 (fun _ => [])
        ⟨true, true, true, true⟩).2.1.blobs (blobName ['k']) = some [1] ∧
    (deploy_module ⟨fun _ => none, fun _ => none⟩ ['k'] [1] 9 (fun _ => [])
        ⟨true, true, true, true⟩).2.1.instances ['k'] = some 9 := by
  have h := C10_write_before_insert ⟨fun _ => none, fun _ => none⟩ ['k'] [1] 9
    (fun _ => []) ⟨true, true, true, true⟩ [] rfl
  exact ⟨h.2.1, h.2.2⟩

/-- Helper: one unfolding step of the recovery loop. -/
theorem recoverModules_cons (readB : List Char → Except Unit Bytes)
    (spawn : Bytes → Except Unit Unit) (e : Entry) (rest : List Entry)
    (m : Key → Option Bytes) :
    recoverModules readB spawn (e :: rest) m =
      if e.mode = EntryMode.FILE then
        Except.bind (readB e.path) fun bytes =>
          Except.bind (spawn bytes) fun _ =>
            recoverModules readB spawn rest (mapInsert m (recoverKey e.name) bytes)
      else recoverModules readB spawn rest m := rfl

/-- Helper: inserting a binding preserves presence of any key in the map. -/
theorem mapInsert_isSome {V : Type} (m : Key → Option V) (k k2 : Key) (v : V)
    (h : (m k).isSome) : (mapInsert m k2 v k).isSome := by
  unfold mapInsert
  by_cases hk : k = k2
  · simp [hk]
  · simp [hk, h]

/-- Helper: a successful recovery run preserves presence of any key already
in the accumulator map. -/
theorem recoverModules_preserves (readB : List Char → Except Unit Bytes)
    (spawn : Bytes → Except Unit Unit) (l : List Entry) :
    ∀ (m m2 : Key → Option Bytes) (k : Key),
      recoverModules readB spawn l m = Except.ok m2 → (m k).isSome →
      (m2 k).isSome := by
  induction l with
  | nil =>
    intro m m2 k hrec h
    simp only [recoverModules, Except.ok.injEq] at hrec
    exact hrec ▸ h
  | cons e rest ih =>
    intro m m2 k hrec h
    rw [recoverModules_cons] at hrec
    by_cases hm : e.mode = EntryMode.FILE
    · rw [if_pos hm] at hrec
      cases hb : readB e.path with
      | error err => rw [hb, exceptBind_error] at hrec; cases hrec
      | ok bytes =>
        rw [hb, exceptBind_ok] at hrec
        cases hs : spawn bytes with
        | error err => rw [hs, exceptBind_error] at hrec; cases hrec
        | ok u =>
          rw [hs, exceptBind_ok] at hrec
          exact ih _ m2 k hrec (mapInsert_isSome m k _ bytes h)
    · rw [if_neg hm] at hrec
      exact ih m m2 k hrec h

/-- Helper: non-FILE entries have no effect on recovery. -/
theorem recoverModules_filter (readB : List Char → Except Unit Bytes)
    (spawn : Bytes → Except Unit Unit) (entries : List Entry) :
    ∀ m, recoverModules readB spawn entries m =
      recoverModules readB spawn
        (entries.filter fun e => decide (e.mode = EntryMode.FILE)) m := by
  induction entries with
  | nil => intro m; rfl
  | cons e rest ih =>
    intro m
    by_cases hm : e.mode = EntryMode.FILE
    · rw [List.filter_cons_of_pos (by simp [hm])]
      rw [recoverModules_cons, recoverModules_cons, if_pos hm, if_pos hm]
      cases readB e.path with
      | error err => rw [exceptBind_error, exceptBind_error]
      | ok bytes =>
        rw [exceptBind_ok, exceptBind_ok]
        cases spawn bytes with
        | error err => rw [exceptBind_error, exceptBind_error]
        | ok u =>
          rw [exceptBind_ok, exceptBind_ok]
          exact ih _
    · rw [List.filter_cons_of_neg (by simp [hm])]
      rw [recoverModules_cons, if_neg hm]
      exact ih m

/-- Helper: when every FILE entry reads and spawns successfully, recovery
succeeds and every FILE entry's derived key is registered. -/
theorem recoverModules_success (readB : List Char → Except Unit Bytes)
    (spawn : Bytes → Except Unit Unit) (entries : List Entry) :
    ∀ (m : Key → Option Bytes),
      (∀ e ∈ entries, e.mode = EntryMode.FILE →
        ∃ b, readB e.path = Except.ok b ∧ spawn b = Except.ok ()) →
      ∃ m2, recoverModules readB spawn entries m = Except.ok m2 ∧
        ∀ e ∈ entries, e.mode = EntryMode.FILE →
          (m2 (recoverKey e.name)).isSome := by
  induction entries with
  | nil =>
    intro m _
    exact ⟨m, rfl, by simp⟩
  | cons e rest ih =>
    intro m hall
    have hrest : ∀ e2 ∈ rest, e2.mode = EntryMode.FILE →
        ∃ b, readB e2.path = Except.ok b ∧ spawn b = Except.ok () :=
      fun e2 he2 => hall e2 (List.mem_cons_of_mem e he2)
    by_cases hm : e.mode = EntryMode.FILE
    · obtain ⟨b, hb, hs⟩ := hall e (List.mem_cons_self e rest) hm
      obtain ⟨m2, hrec, hmem⟩ := ih (mapInsert m (recoverKey e.name) b) hrest
      refine ⟨m2, ?_, ?_⟩
      · rw [recoverModules_cons, if_pos hm, hb, exceptBind_ok, hs, exceptBind_ok]
        exact hrec
      · intro e2 he2 hm2
        rcases List.mem_cons.mp he2 with rfl | he2
        · exact recoverModules_preserves readB spawn rest _ m2 _ hrec
            (by simp [mapInsert])
        · exact hmem e2 he2 hm2
    · obtain ⟨m2, hrec, hmem⟩ := ih m hrest
      refine ⟨m2, ?_, ?_⟩
      · rw [recoverModules_cons, if_neg hm]
        exact hrec
      · intro e2 he2 hm2
        rcases List.mem_cons.mp he2 with rfl | he2
        · exact absurd hm2 hm
        · exact hmem e2 he2 hm2

/-- Helper: recovery aborts with an error at the first failing FILE entry,
whatever entries follow. -/
theorem recoverModules_abort (readB : List Char → Except Unit Bytes)
    (spawn : Bytes → Except Unit Unit) (e : Entry)
    (hm : e.mode = EntryMode.FILE)
    (hfail : readB e.path = Except.error () ∨
      ∃ b, readB e.path = Except.ok b ∧ spawn b = Except.error ()) :
    ∀ (pre post : List Entry) (m : Key → Option Bytes),
      (∀ e2 ∈ pre, e2.mode = EntryMode.FILE →
        ∃ b, readB e2.path = Except.ok b ∧ spawn b = Except.ok ()) →
      recoverModules readB spawn (pre ++ e :: post) m = Except.error () := by
  intro pre
  induction pre with
  | nil =>
    intro post m _
    rw [List.nil_append, recoverModules_cons, if_pos hm]
    rcases hfail with hb | ⟨b, hb, hs⟩
    · rw [hb, exceptBind_error]
    · rw [hb, exceptBind_ok, hs, exceptBind_error]
  | cons e2 pre ih =>
    intro post m hall
    rw [List.cons_append, recoverModules_cons]
    by_cases hm2 : e2.mode = EntryMode.FILE
    · obtain ⟨b, hb, hs⟩ := hall e2 (List.mem_cons_self e2 pre) hm2
      rw [if_pos hm2, hb, exceptBind_ok, hs, exceptBind_ok]
      exact ih post _ (fun e3 he3 => hall e3 (List.mem_cons_of_mem e2 he3))
    · rw [if_neg hm2]
      exact ih post m (fun e3 he3 => hall e3 (List.mem_cons_of_mem e2 he3))

/-- C8: startup recovery walks the listed entries sequentially; non-FILE
entries are skipped (recovery is unchanged by dropping them); when every
FILE entry's bytes read and worker spawn succeed, recovery succeeds and
registers each FILE entry under the key derived by stripping `.wasm` from
its name; and a read or spawn failure on any single FILE entry aborts the
whole startup with an error instead of continuing with later entries. -/
theorem C8_startup_recovery (readB : List Char → Except Unit Bytes)
    (spawn : Bytes → Except Unit Unit) :
    (∀ (entries : List Entry) (m : Key → Option Bytes),
      recoverModules readB spawn entries m =
        recoverModules readB spawn
          (entries.filter fun e => decide (e.mode = EntryMode.FILE)) m) ∧
    (∀ (entries : List Entry) (m : Key → Option Bytes),
      (∀ e ∈ entries, e.mode = EntryMode.FILE →
        ∃ b, readB e.path = Except.ok b ∧ spawn b = Except.ok ()) →
      ∃ m2, recoverModules readB spawn entries m = Except.ok m2 ∧
        ∀ e ∈ entries, e.mode = EntryMode.FILE →
          (m2 (recoverKey e.name)).isSome) ∧
    (∀ (e : Entry), e.mode = EntryMode.FILE →
      (readB e.path = Except.error () ∨
        ∃ b, readB e.path = Except.ok b ∧ spawn b = Except.error ()) →
      ∀ (pre post : List Entry) (m : Key → Option Bytes),
        (∀ e2 ∈ pre, e2.mode = EntryMode.FILE →
          ∃ b, readB e2.path = Except.ok b ∧ spawn b = Except.ok ()) →
        recoverModules readB spawn (pre ++ e :: post) m = Except.error ()) :=
  ⟨fun entries m => recoverModules_filter readB spawn entries m,
   fun entries m h => recoverModules_success readB spawn entries m h,
   fun e hm hf pre post m hall => recoverModules_abort readB spawn e hm hf pre post m hall⟩

/-- Sample recovery environment for the C8 witness: reads yield the byte 7,
spawns succeed. -/
def sampleRead : List Char → Except Unit Bytes := fun _ => Except.ok [7]

/-- Sample spawn that always succeeds, for the C8 witness. -/
def sampleSpawn : Bytes → Except Unit Unit := fun _ => Except.ok ()

/-- Failing read, for the C8 witness abort case. -/
def failRead : List Char → Except Unit Bytes := fun _ => Except.error ()

/-- A FILE listing entry named `m.wasm`, for the C8 witness. -/
def sampleFileEntry : Entry := ⟨['m'], ['m', '.', 'w', 'a', 's', 'm'], EntryMode.FILE⟩

/-- A directory listing entry, for the C8 witness. -/
def sampleDirEntry : Entry := ⟨['d'], ['d'], EntryMode.DIR⟩

/-- C8 witness: concretely, recovery over a FILE entry and a directory entry
equals recovery over the FILE entry alone, and a failing read on the single
FILE entry aborts recovery with an error. -/
theorem C8_witness :
    recoverModules sampleRead sampleSpawn [sampleFileEntry, sampleDirEntry]
      (fun _ => none) =
      recoverModules sampleRead sampleSpawn [sampleFileEntry] (fun _ => none) ∧
    recoverModules failRead sampleSpawn [sampleFileEntry] (fun _ => none) =
      Except.error () := by
  constructor
  · have h := (C8_startup_recovery sampleRead sampleSpawn).1
      [sampleFileEntry, sampleDirEntry] (fun _ => none)
    exact h.trans (by rfl)
  · exact (C8_startup_recovery failRead sampleSpawn).2.2 sampleFileEntry rfl
      (Or.inl rfl) [] [] (fun _ => none) (fun e2 he2 => absurd he2 (by simp))

end Rvm
